import Mathlib

/-!
Verification development for the jefferies-sync property matching engine
(`src/lib/property_search.py`, with the legacy variant `src/property_search.py`).

The Python data (query dicts, Mongo documents) is shallowly embedded with
typed structures; Python floats are modelled as exact rationals (no claim
here depends on floating-point rounding: all constants have small decimal
denominators and all compared quantities are separated by far more than the
double-precision error of the corresponding Python computation); Mongo query
dicts are embedded as a small filter AST with an evaluator that encodes
MongoDB matching semantics (`$gte`/`$lte` are type-bracketed and do not match
a missing or string-typed field, `$in` matches by equality, `$regex` with an
escaped pattern and the `i` option is case-insensitive substring match,
array fields match when any element matches).

String operations model Python `str` operations on ASCII text (all vocabulary
tables and all inputs appearing in the theorems are ASCII).
-/

/-! ## ASCII string helpers (models of Python str operations) -/

/-- ASCII whitespace, as recognised by Python `str.strip` / `\s` on ASCII text. -/
def isWSCh (c : Char) : Bool :=
  c = ' ' || c = '\t' || c = '\n' || c = '\x0d' || c = '\x0c' || c = '\x0b'

/-- ASCII decimal digit (models `\d` / `str.isdigit` on ASCII text). -/
def isDigitCh (c : Char) : Bool := '0' ≤ c && c ≤ '9'

/-- ASCII lower-casing of one character (models `str.lower` on ASCII text). -/
def lowerCh (c : Char) : Char :=
  if 'A' ≤ c && c ≤ 'Z' then Char.ofNat (c.toNat + 32) else c

def lowerStr (s : String) : String := ⟨s.data.map lowerCh⟩

/-- Python `str.strip()` on ASCII text: drop whitespace from both ends. -/
def stripStr (s : String) : String :=
  ⟨(s.data.dropWhile isWSCh).reverse.dropWhile isWSCh |>.reverse⟩

/-- Substring test on character lists (the empty needle matches, as in Python). -/
def subList (needle hay : List Char) : Bool :=
  match hay with
  | [] => needle.isEmpty
  | _ :: t => needle.isPrefixOf hay || subList needle t

/-- Python `needle in hay` for strings. -/
def strContains (hay needle : String) : Bool := subList needle.data hay.data

/-- Case-insensitive substring match: models Mongo `$regex` with an escaped
pattern and `$options: "i"`, and Python `x in s.lower()` tests. -/
def containsCI (hay needle : String) : Bool :=
  strContains (lowerStr hay) (lowerStr needle)

/-- Numeric value of a list of ASCII digit characters. -/
def natOfDigits (l : List Char) : Nat :=
  l.foldl (fun acc c => acc * 10 + (c.toNat - '0'.toNat)) 0

/-- Python string `<` on ASCII text: lexicographic by code point. -/
def strLtPy (a b : String) : Bool :=
  let rec go : List Char → List Char → Bool
    | [], [] => false
    | [], _ :: _ => true
    | _ :: _, [] => false
    | c :: cs, d :: ds => if c.toNat < d.toNat then true
        else if d.toNat < c.toNat then false else go cs ds
  go a.data b.data

/-- The list of integers `lo, lo+1, ..., hi` (Python `range(lo, hi+1)`). -/
def intRange (lo hi : Int) : List Int :=
  (List.range (hi + 1 - lo).toNat).map (fun k => lo + (k : Int))

/-! ## Python values and the lenient integer parser `_intish`

Mongo document fields are heterogeneously typed in this codebase: an
attribute may hold an integer, a numeric string, or (pathologically) a
boolean.  `PyVal` models exactly those scalar shapes. -/

inductive PyVal where
  | vint (n : Int)
  | vstr (s : String)
  | vbool (b : Bool)
deriving DecidableEq, Repr

/-- Python `int(s)` for strings: optional surrounding whitespace, optional
sign, then a nonempty digit sequence in which single underscores may appear
between digits (CPython's grammar for integer literals from strings,
restricted to base 10 / ASCII). -/
def pyIntOfString (s : String) : Option Int :=
  let rec digitsUS (acc : List Char) : List Char → Option (List Char)
    | [] => some acc.reverse
    | '_' :: c :: rest =>
        if isDigitCh c then digitsUS (c :: acc) rest else none
    | ['_'] => none
    | c :: rest => if isDigitCh c then digitsUS (c :: acc) rest else none
  let cs := (s.data.dropWhile isWSCh).reverse.dropWhile isWSCh |>.reverse
  let (neg, cs) := match cs with
    | '-' :: rest => (true, rest)
    | '+' :: rest => (false, rest)
    | rest => (false, rest)
  match cs with
  | [] => none
  | c :: rest =>
      if isDigitCh c then
        match digitsUS [c] rest with
        | some ds => some (if neg then -(natOfDigits ds : Int) else (natOfDigits ds : Int))
        | none => none
      else none

/-- Python `int(v)` on the values `int(...)` accepts without raising:
ints themselves, bools (`int(False) = 0`, `int(True) = 1`) and
integer-looking strings.  Returns `none` where Python raises. -/
def pyInt : PyVal → Option Int
  | .vint n => some n
  | .vbool b => some (if b then 1 else 0)
  | .vstr s => pyIntOfString s

/-- Python `str(v)`. -/
def pyStr : PyVal → String
  | .vint n => toString n
  | .vbool b => if b then "True" else "False"
  | .vstr s => s

/-- The guard `v in (None, "", False)` of `_intish`: Python membership uses
`==`, under which `0 == False` (and `"" == ""`, `False == False`). -/
def intishGuard : PyVal → Bool
  | .vstr s => s = ""
  | .vbool b => b = false
  | .vint n => n = 0

/-- `_intish` from `src/lib/property_search.py`: `None`/`""`/`False` (and,
via `0 == False`, the integer `0`) map to `None`; otherwise try `int(v)`;
on failure delete every non-digit character of `str(v)` and parse what is
left, `None` if nothing is left.  The argument is `Option PyVal` because the
callers feed it `doc.get(...)`, which may be `None`. -/
def intish : Option PyVal → Option Int
  | none => none
  | some v =>
      if intishGuard v then none
      else
        match pyInt v with
        | some n => some n
        | none =>
            let ds := (pyStr v).data.filter isDigitCh
            if ds.isEmpty then none else some (natOfDigits ds : Int)

/-! ## difflib model: `SequenceMatcher` total matched size and
`get_close_matches`

`canonical_subcategory` falls back to `difflib.get_close_matches(t, keys,
n=1, cutoff=0.82)`.  For two strings `a` (a table key) and `b` (the query
word) difflib's similarity ratio is `2*M/(len(a)+len(b))` where `M` is the
total size of the matching blocks computed by `SequenceMatcher`.  All strings
involved are far shorter than 200 characters, so difflib's autojunk and junk
heuristics are inert, and the junk-extension loops of `find_longest_match`
are no-ops (the dynamic program below already returns a maximal block: were
it extendable, a strictly longer suffix run would have been recorded).  The
`quick_ratio`/`real_quick_ratio` pre-filters are upper bounds of `ratio`, so
`get_close_matches` keeps exactly the keys with `ratio ≥ cutoff`.  Ratios are
compared as exact rationals by cross-multiplication; at the string lengths
involved, a Python float ratio differs from the exact value by far less than
its distance from the cutoff, so this is faithful. -/

/-- Indices (ascending) at which character `c` occurs in `b` (difflib `b2j`). -/
def b2jList (b : List Char) (c : Char) : List Nat :=
  (List.range b.length).filter (fun j => b.get? j = some c)

/-- `SequenceMatcher.find_longest_match` over full strings: returns
`(i, j, size)` of the longest block common to `a` and `b`, earliest `i`
then earliest `j` winning ties (difflib updates only on strictly larger
size while scanning `i` then `j` in increasing order). -/
def flm (a b : List Char) : Nat × Nat × Nat :=
  let step := fun (st : List (Nat × Nat) × (Nat × Nat × Nat)) (i : Nat) =>
    let j2len := st.1
    let js := b2jList b (a.getD i ' ')
    let inner := js.foldl
      (fun (st2 : List (Nat × Nat) × (Nat × Nat × Nat)) (j : Nat) =>
        let k := (if j = 0 then 0 else ((j2len.lookup (j - 1)).getD 0)) + 1
        let best := st2.2
        ((j, k) :: st2.1, if k > best.2.2 then (i + 1 - k, j + 1 - k, k) else best))
      ([], st.2)
    (inner.1, inner.2)
  ((List.range a.length).foldl step ([], (0, 0, 0))).2

/-- Total size of all matching blocks (`get_matching_blocks`), fuelled for
termination: the `b`-slice shrinks strictly along every recursion path, so
`a.length + b.length + 1` fuel always suffices. -/
def matchSumF : Nat → List Char → List Char → Nat
  | 0, _, _ => 0
  | fuel + 1, a, b =>
      let r := flm a b
      let i := r.1; let j := r.2.1; let k := r.2.2
      if k = 0 then 0
      else
        k + matchSumF fuel (a.take i) (b.take j)
          + matchSumF fuel (a.drop (i + k)) (b.drop (j + k))

/-- Total matched size `M` between a table key `a` and the query word `b`. -/
def matchSum (a b : List Char) : Nat := matchSumF (a.length + b.length + 1) a b

/-- `ratio(a,b) ≥ cnum/cden`, compared exactly: `2M/(la+lb) ≥ cnum/cden`
(for `la+lb = 0` difflib defines the ratio as `1.0`). -/
def ratioGe (a b : List Char) (cnum cden : Nat) : Bool :=
  let t := a.length + b.length
  if t = 0 then true else 2 * matchSum a b * cden ≥ cnum * t

/-- `(M₁,T₁) > (M₂,T₂)` as ratios, exactly (both totals positive here). -/
def ratioGtPair (m1 t1 m2 t2 : Nat) : Bool := m1 * t2 > m2 * t1

/-- `difflib.get_close_matches(word, keys, n=1, cutoff=cnum/cden)`: keep the
keys whose ratio reaches the cutoff and return the maximum of the pairs
`(ratio, key)` — `heapq.nlargest` compares the tuples, so equal ratios are
broken by Python string comparison. -/
def getCloseMatch1 (word : String) (keys : List String) (cnum cden : Nat) : Option String :=
  keys.foldl
    (fun best k =>
      if ratioGe k.data word.data cnum cden then
        let m := matchSum k.data word.data
        let t := k.data.length + word.data.length
        match best with
        | none => some (m, t, k)
        | some (m0, t0, k0) =>
            if ratioGtPair m t m0 t0 then some (m, t, k)
            else if m * t0 = m0 * t && strLtPy k0 k then some (m, t, k)
            else best
      else best)
    (none : Option (Nat × Nat × String))
  |>.map (fun b => b.2.2)

/-! ## Vocabulary tables and resolvers (`src/lib/property_search.py`) -/

/-- `_LOOKUP`: synonym → canonical subcategory, from `_SUBCAT_CANON`, with
the canonical keys added as self-entries ("flat" already occurs as a
synonym; Python dict keys are unique).  Set iteration order is immaterial:
the synonym sets are pairwise disjoint, so `_LOOKUP` is order-independent
as a map, and the fuzzy lookup below selects a maximum. -/
def subcatPairs : List (String × String) :=
  [("detached house", "house"), ("semi-detached house", "house"),
   ("terraced house", "house"), ("end of terrace house", "house"),
   ("mid terrace house", "house"), ("town house", "house"),
   ("mews house", "house"), ("character property", "house"),
   ("mews", "house"), ("mews home", "house"),
   ("apartment", "flat"), ("apartments", "flat"), ("studio", "flat"),
   ("duplex", "flat"), ("penthouse", "flat"), ("maisonette", "flat"),
   ("flat", "flat"),
   ("house boat", "other"), ("houseboat", "other"), ("boat", "other"),
   ("house", "house"), ("other", "other")]

def subcatKeys : List String := subcatPairs.map Prod.fst

/-- `canonical_subcategory` (lib variant): falsy input → `None`; strip and
lower-case; exact table lookup; otherwise `get_close_matches(..., n=1,
cutoff=0.82)` and resolve the hit through the table. -/
def canonical_subcategory (val : String) : Option String :=
  if val = "" then none
  else
    let t := lowerStr (stripStr val)
    match subcatPairs.lookup t with
    | some c => some c
    | none =>
        match getCloseMatch1 t subcatKeys 41 50 with
        | some hit => subcatPairs.lookup hit
        | none => none

/-- Modelled from the spec: the same resolver with the similarity cutoff
the specification states, `0.8` instead of the source's `0.82` — used only
to compare the spec's description against the code. -/
def canonicalSubcategorySpec08 (val : String) : Option String :=
  if val = "" then none
  else
    let t := lowerStr (stripStr val)
    match subcatPairs.lookup t with
    | some c => some c
    | none =>
        match getCloseMatch1 t subcatKeys 4 5 with
        | some hit => subcatPairs.lookup hit
        | none => none

/-- `_FEATURE_MAP` (lib variant), in dict insertion order: the resolver
scans `canon, synonyms` pairs in this order and the first hit wins. -/
def featurePairs : List (String × List String) :=
  [("private garden", ["garden", "roof garden", "roof terrace", "terrace"]),
   ("stairs", ["stairs", "internal staircase", "duplex", "internal stairs"]),
   ("off-street parking", ["off street", "private parking", "driveway"]),
   ("double garage", ["double garage", "garage (2 car)", "garage en bloc"]),
   ("lift", ["lift", "elevator"]),
   ("balcony", ["balcony", "front terrace"]),
   ("guest wc", ["guest wc", "guest cloakroom", "cloakroom", "wc"])]

/-- `norm_feature`: strip+lower the term, return the first canonical
amenity whose name or synonym set contains it, else the term unchanged. -/
def norm_feature (term : String) : String :=
  let t := lowerStr (stripStr term)
  match featurePairs.find? (fun p => t = p.1 || p.2.contains t) with
  | some p => p.1
  | none => t

/-! ## Data model: listings (Mongo documents) and queries

A `Listing` carries exactly the fields the engine reads, each optional (a
missing Mongo field is `none`).  Heterogeneously typed fields (beds, baths,
numeric prices that may arrive as strings) are `Option PyVal`; text fields
are `Option String`; array fields are string lists.  `highlights` models the
list of `{description: ...}` sub-documents by their description strings, and
`listing_price_match_sale` models the dotted path `listing.price_match_sale`. -/

structure Attrs where
  bedrooms : Option PyVal := none
  bathrooms : Option PyVal := none
deriving DecidableEq, Repr

structure Listing where
  _id : Option String := none
  id : Option String := none
  purpose : Option String := none
  status : Option String := none
  subcategory_canonical : Option String := none
  subcategories : List String := []
  price_sale_gbp : Option PyVal := none
  price_sort_gbp : Option PyVal := none
  price_match_sale : Option PyVal := none
  listing_price_match_sale : Option PyVal := none
  price_match : Option PyVal := none
  state_value_price : Option PyVal := none
  price_rent_pcm_gbp : Option PyVal := none
  price_rent_amount_gbp : Option PyVal := none
  price_match_rent_pa_inc_tax_month : Option PyVal := none
  price_display : Option String := none
  attributes : Option Attrs := none
  attributes_full : Option Attrs := none
  beds : Option PyVal := none
  baths : Option PyVal := none
  features : List String := []
  highlights : List String := []
  display_address : Option String := none
  advert_heading : Option String := none
  advert_body : Option String := none
  address_postcode : Option String := none
  address_locality : Option String := none
  address_suburb_or_town : Option String := none
  address_full_address : Option String := none
  location_terms : List String := []
  tags : List String := []
  updated_at : Option Nat := none
deriving DecidableEq, Repr

/-- A query dict as consumed by `find_best` / `find_one`: every key
optional, numeric bounds typed as integers (string-typed bounds are out of
scope of the claims below). -/
structure Query where
  location : Option String := none
  keyword : Option String := none
  purpose : Option String := none
  status : Option String := none
  subcategory : Option String := none
  subcategory_canonical : Option String := none
  price_min : Option Int := none
  price_max : Option Int := none
  beds_min : Option Int := none
  baths_min : Option Int := none
  features : List String := []
  listing_id : Option String := none
  _id : Option String := none
  id : Option String := none
deriving DecidableEq, Repr

/-- Python truthiness of `q.get(key)` for an optional string. -/
def tstr (o : Option String) : Bool := o.any (fun s => s ≠ "")

/-- Python truthiness of `q.get(key)` for an optional integer. -/
def tint (o : Option Int) : Bool := o.any (fun n => n ≠ 0)

/-- Python `a or b or ""` on two optional strings: the first truthy value,
else the empty string. -/
def pyOrStr (a b : Option String) : String :=
  if tstr a then a.getD "" else if tstr b then b.getD "" else ""

/-! ## Mongo filter AST and matching semantics -/

/-- The document field paths that occur in the filters the engine builds. -/
inductive FPath where
  | purpose | status | subcategory_canonical | subcategories
  | attributes_bedrooms | attributes_full_bedrooms | beds
  | attributes_bathrooms | attributes_full_bathrooms | baths
  | price_sort_gbp | price_sale_gbp | price_match_sale
  | price_rent_pcm_gbp | price_match_rent_pa_inc_tax_month
  | display_address | address_postcode | address_full_address
  | address_locality | address_suburb_or_town | location_terms
  | advert_heading | advert_body | highlights_description | features
deriving DecidableEq, Repr

/-- The values stored at a path: a scalar path yields at most one value, an
array path yields its elements (Mongo applies an operator to each). -/
def getVals (l : Listing) : FPath → List PyVal
  | .purpose => (l.purpose.map .vstr).toList
  | .status => (l.status.map .vstr).toList
  | .subcategory_canonical => (l.subcategory_canonical.map .vstr).toList
  | .subcategories => l.subcategories.map .vstr
  | .attributes_bedrooms => ((l.attributes.bind Attrs.bedrooms)).toList
  | .attributes_full_bedrooms => ((l.attributes_full.bind Attrs.bedrooms)).toList
  | .beds => l.beds.toList
  | .attributes_bathrooms => ((l.attributes.bind Attrs.bathrooms)).toList
  | .attributes_full_bathrooms => ((l.attributes_full.bind Attrs.bathrooms)).toList
  | .baths => l.baths.toList
  | .price_sort_gbp => l.price_sort_gbp.toList
  | .price_sale_gbp => l.price_sale_gbp.toList
  | .price_match_sale => l.price_match_sale.toList
  | .price_rent_pcm_gbp => l.price_rent_pcm_gbp.toList
  | .price_match_rent_pa_inc_tax_month => l.price_match_rent_pa_inc_tax_month.toList
  | .display_address => (l.display_address.map .vstr).toList
  | .address_postcode => (l.address_postcode.map .vstr).toList
  | .address_full_address => (l.address_full_address.map .vstr).toList
  | .address_locality => (l.address_locality.map .vstr).toList
  | .address_suburb_or_town => (l.address_suburb_or_town.map .vstr).toList
  | .location_terms => l.location_terms.map .vstr
  | .advert_heading => (l.advert_heading.map .vstr).toList
  | .advert_body => (l.advert_body.map .vstr).toList
  | .highlights_description => l.highlights.map .vstr
  | .features => l.features.map .vstr

/-- Field conditions: `{"$gte": lo, "$lte": hi}` bound dicts, `$in` with a
string list, `$regex` (escaped pattern, `i` option) and string equality. -/
inductive Cond where
  | range (lo hi : Option Int)
  | inStr (ss : List String)
  | regex (pat : String)
  | eqStr (s : String)
deriving DecidableEq, Repr

/-- MongoDB operator semantics on one stored value.  Comparison operators
are type-bracketed: a numeric `$gte`/`$lte` never matches a string or
boolean value, `$in` over strings never matches a number, `$regex` applies
to strings only. -/
def condMatches (c : Cond) (v : PyVal) : Bool :=
  match c, v with
  | .range lo hi, .vint n => lo.all (fun a => a ≤ n) && hi.all (fun b => n ≤ b)
  | .range _ _, _ => false
  | .inStr ss, .vstr s => ss.contains s
  | .inStr _, _ => false
  | .regex pat, .vstr s => containsCI s pat
  | .regex _, _ => false
  | .eqStr t, .vstr s => s = t
  | .eqStr _, _ => false

/-- Filters: `top` is the empty dict `{}` (matches everything), `bot` the
empty `$or` (used only as a fold seed, matches nothing). -/
inductive MFilter where
  | top
  | bot
  | cnd (p : FPath) (c : Cond)
  | conj (f g : MFilter)
  | disj (f g : MFilter)
deriving DecidableEq, Repr

def evalFilter : MFilter → Listing → Bool
  | .top, _ => true
  | .bot, _ => false
  | .cnd p c, l => (getVals l p).any (condMatches c)
  | .conj f g, l => evalFilter f l && evalFilter g l
  | .disj f g, l => evalFilter f l || evalFilter g l

/-- `{"$or": [...]}` over a list of branches. -/
def orList (fs : List MFilter) : MFilter := fs.foldr .disj .bot

/-- `{"$and": [...]}` / a dict of several keys: conjunction. -/
def andList (fs : List MFilter) : MFilter := fs.foldr .conj .top

/-! ## Accessors (`PropertyRepository._price_from_display`, `_price_numeric`,
`_beds`, `_baths`, `_has_feat`); leading underscores are dropped in the Lean
names. -/

/-- First `£`-prefixed digit/comma run of a display string, as `re.search`
finds it: at each `£`, skip whitespace; if a nonempty `[0-9,]+` run follows,
that `£` wins, else scanning resumes after it. -/
def poundRun : List Char → Option (List Char)
  | [] => none
  | '£' :: rest =>
      let run := (rest.dropWhile isWSCh).takeWhile (fun c => isDigitCh c || c = ',')
      if run.isEmpty then poundRun rest else some run
  | _ :: rest => poundRun rest

/-- Leftmost `[0-9][0-9,]{3,}` run (the fallback pattern): the first digit
position whose maximal digit/comma run is at least 4 long; scanning resumes
one character later on failure, exactly as the regex engine does. -/
def numRun : List Char → Option (List Char)
  | [] => none
  | c :: rest =>
      if isDigitCh c then
        let run := c :: rest.takeWhile (fun d => isDigitCh d || d = ',')
        if 4 ≤ run.length then some run else numRun rest
      else numRun rest

/-- `_price_from_display`: falsy input → `None`; else the first `£`-number
(commas deleted; a comma-only run makes `int("")` raise, hence `None`
without falling through); else the first 4+-long digit/comma run. -/
def price_from_display (s? : Option String) : Option Int :=
  match s? with
  | none => none
  | some s =>
      if s = "" then none
      else
        match poundRun s.data with
        | some run =>
            let ds := run.filter isDigitCh
            if ds.isEmpty then none else some (natOfDigits ds : Int)
        | none =>
            match numRun s.data with
            | some run => some (natOfDigits (run.filter isDigitCh) : Int)
            | none => none

/-- The purpose-dependent ordered key lists of `_price_numeric` (the dotted
`listing.price_match_sale` is the nested-field read). -/
def priceKeyVals (l : Listing) (purpose : Option String) : List (Option PyVal) :=
  if purpose = some "rental" then
    [l.price_rent_pcm_gbp, l.price_rent_amount_gbp,
     l.price_match_rent_pa_inc_tax_month, l.price_match, l.state_value_price]
  else
    [l.price_sale_gbp, l.price_sort_gbp, l.price_match_sale,
     l.listing_price_match_sale, l.price_match, l.state_value_price]

/-- `_price_numeric`: first key whose `_intish` value is truthy (`if iv:`
skips both `None` and `0`); then the display-string fallbacks — the
`price_display` parse is returned only if truthy (`if p:`), the
`advert_internet.heading` parse unconditionally. -/
def price_numeric (l : Listing) (purpose : Option String) : Option Int :=
  match (priceKeyVals l purpose).findSome? (fun v =>
      match intish v with
      | some n => if n ≠ 0 then some n else none
      | none => none) with
  | some n => some n
  | none =>
      let p := price_from_display l.price_display
      if (p.getD 0) ≠ 0 then p else price_from_display l.advert_heading

/-- `_beds`: lenient accessor over `attributes.bedrooms`,
`attributes_full.bedrooms`, then the flat `beds` field (first key whose
`_intish` value `is not None` — here `0` is possible via the string `"0"`). -/
def bedsOf (l : Listing) : Option Int :=
  match intish (l.attributes.bind Attrs.bedrooms) with
  | some n => some n
  | none =>
      match intish (l.attributes_full.bind Attrs.bedrooms) with
      | some n => some n
      | none => intish l.beds

/-- `_baths`: same shape over the bathroom locations. -/
def bathsOf (l : Listing) : Option Int :=
  match intish (l.attributes.bind Attrs.bathrooms) with
  | some n => some n
  | none =>
      match intish (l.attributes_full.bind Attrs.bathrooms) with
      | some n => some n
      | none => intish l.baths

/-- `_has_feat`: the lower-cased feature occurs as a substring of a feature
string, of a highlight description, or of the joined marketing text. -/
def has_feat (l : Listing) (feat : String) : Bool :=
  let f := lowerStr feat
  l.features.any (fun x => strContains (lowerStr x) f)
  || l.highlights.any (fun h => strContains (lowerStr h) f)
  || strContains (lowerStr (String.intercalate " "
       [l.display_address.getD "", l.advert_heading.getD "", l.advert_body.getD ""])) f

/-! ## Scoring (`PropertyRepository._score`), over exact rationals.

`_score` is a sequence of `score += term` updates; it is embedded as the sum
of one definition per block, in the code's order. -/

/-- Term 1: text relevance, weight 1.0. -/
def textTermOf (ts : ℚ) : ℚ := ts

/-- The requested canonical subcategory:
`canonical_subcategory(q.get("subcategory") or q.get("subcategory_canonical") or "")`. -/
def wantSubcat (q : Query) : Option String :=
  canonical_subcategory (pyOrStr q.subcategory q.subcategory_canonical)

/-- The listing's canonical subcategory as `_score` resolves it: the stored
field if truthy, else the first list entry that canonicalizes. -/
def haveSubcat (l : Listing) : Option String :=
  if tstr l.subcategory_canonical then l.subcategory_canonical
  else (l.subcategories.filterMap canonical_subcategory).head?

/-- Term 2: subcategory match `+2.0` / mismatch `−0.75` (only when the query
requests one; table values are nonempty strings, hence truthy). -/
def subcatTerm (l : Listing) (q : Query) : ℚ :=
  match wantSubcat q with
  | none => 0
  | some w => if haveSubcat l = some w then 2 else -(3/4 : ℚ)

/-- Term 3: purpose mismatch `−2.0` when both sides are truthy and differ. -/
def purposeTerm (l : Listing) (q : Query) : ℚ :=
  if tstr q.purpose && tstr l.purpose && (l.purpose ≠ q.purpose : Bool) then -2 else 0

/-- Term 4: price closeness.  Note the truthiness tests (`if price:`,
`if pmin or pmax`, `pmin or price`) and the denominator
`max(1.0, hi - lo if hi > lo else max(1.0, mid))`. -/
def priceTerm (l : Listing) (q : Query) : ℚ :=
  match price_numeric l q.purpose with
  | none => 0
  | some price =>
      if price = 0 then 0
      else if tint q.price_min || tint q.price_max then
        let lo : ℚ := if tint q.price_min then (q.price_min.getD 0 : ℚ) else (price : ℚ)
        let hi : ℚ := if tint q.price_max then (q.price_max.getD 0 : ℚ) else (price : ℚ)
        let mid := (lo + hi) / 2
        let dist := |(price : ℚ) - mid| / (if lo < hi then max 1 (hi - lo) else max 1 mid)
        2 * max 0 (1 - min 1 dist)
      else 1/4

/-- Term 5a: beds (`if want_beds:` is a truthiness test). -/
def bedsTerm (l : Listing) (q : Query) : ℚ :=
  match q.beds_min with
  | none => 0
  | some m =>
      if m = 0 then 0
      else
        match bedsOf l with
        | none => -(1/4 : ℚ)
        | some b => if b < m then -(((m - b : Int) : ℚ))
                    else min 2 (3/5 + (1/5) * ((b - m : Int) : ℚ))

/-- Term 5b: baths, `−0.8` per unit short, bonus capped at `1.7`. -/
def bathsTerm (l : Listing) (q : Query) : ℚ :=
  match q.baths_min with
  | none => 0
  | some m =>
      if m = 0 then 0
      else
        match bathsOf l with
        | none => -(1/4 : ℚ)
        | some b => if b < m then -(((m - b : Int) : ℚ) * (4/5))
                    else min (17/10) (1/2 + (1/5) * ((b - m : Int) : ℚ))

/-- The query's normalized feature list `[norm_feature(x) for x in ... if x]`. -/
def qFeats (q : Query) : List String :=
  (q.features.filter (fun x => x ≠ "")).map norm_feature

/-- Term 6: feature coverage `min(1.5, 0.5 * hits)` when features requested. -/
def featTerm (l : Listing) (q : Query) : ℚ :=
  let feats := qFeats q
  if feats.isEmpty then 0
  else min (3/2) ((1/2) * ((feats.filter (has_feat l)).length : ℚ))

/-- Term 7: freshness bump (`updated_at` is a datetime, truthy when present). -/
def freshTerm (l : Listing) : ℚ := if l.updated_at.isSome then 1/10 else 0

/-- `_score(doc, q, text_score)`. -/
def score (l : Listing) (q : Query) (ts : ℚ) : ℚ :=
  textTermOf ts + subcatTerm l q + purposeTerm l q + priceTerm l q
    + bedsTerm l q + bathsTerm l q + featTerm l q + freshTerm l

/-! ## Tier filter builders (`_price_filter_or`, `_beds_filter_or`,
`_baths_filter_or`, `_base_filter`, `_text_terms`) -/

/-- `_price_filter_or`: `None` when both bounds are `None` (the `is None`
test, not truthiness); otherwise an `$or` of the same bounds dict over the
purpose-selected numeric price keys. -/
def price_filter_or (purpose : Option String) (pmin pmax : Option Int) : Option MFilter :=
  if pmin = none && pmax = none then none
  else
    let keys : List FPath :=
      if purpose = some "rental" then
        [.price_rent_pcm_gbp, .price_match_rent_pa_inc_tax_month]
      else
        [.price_sort_gbp, .price_sale_gbp, .price_match_sale]
    some (orList (keys.map (fun k => .cnd k (.range pmin pmax))))

/-- `_beds_filter_or`: `None` on a falsy minimum (`if not min_v:` — so also
for `0`); otherwise `$gte` on the attribute locations plus defensive `$in`
against the string range `[str(min_v), ..., "20"]` (the bare `beds` field
gets only the string test). -/
def beds_filter_or (min_v : Option Int) : Option MFilter :=
  if !tint min_v then none
  else
    let m := min_v.getD 0
    let strCands := (intRange m 20).map (fun i => toString i)
    some (orList
      [.cnd .attributes_bedrooms (.range (some m) none),
       .cnd .attributes_full_bedrooms (.range (some m) none),
       .cnd .attributes_bedrooms (.inStr strCands),
       .cnd .attributes_full_bedrooms (.inStr strCands),
       .cnd .beds (.inStr strCands)])

/-- `_baths_filter_or`: same shape over the bathroom locations. -/
def baths_filter_or (min_v : Option Int) : Option MFilter :=
  if !tint min_v then none
  else
    let m := min_v.getD 0
    let strCands := (intRange m 20).map (fun i => toString i)
    some (orList
      [.cnd .attributes_bathrooms (.range (some m) none),
       .cnd .attributes_full_bathrooms (.range (some m) none),
       .cnd .attributes_bathrooms (.inStr strCands),
       .cnd .attributes_full_bathrooms (.inStr strCands),
       .cnd .baths (.inStr strCands)])

/-- `_base_filter`: purpose/status equality when the query value is in the
allowed enumeration, plus (when `include_type`) the canonical-subcategory
`$or` of the exact field and a case-insensitive substring on the raw list. -/
def base_filter (q : Query) (include_type : Bool) : MFilter :=
  let fs : List MFilter :=
    (if q.purpose = some "sale" || q.purpose = some "rental" then
      [.cnd .purpose (.eqStr (q.purpose.getD ""))] else [])
    ++ (if q.status = some "current" || q.status = some "sold" then
      [.cnd .status (.eqStr (q.status.getD ""))] else [])
    ++ (if include_type then
        match wantSubcat q with
        | some w => [MFilter.disj (.cnd .subcategory_canonical (.eqStr w))
                                  (.cnd .subcategories (.regex w))]
        | none => []
      else [])
  andList fs

/-- `_text_terms`: the location/keyword value (stripped) joined with the
normalized nonempty features. -/
def text_terms (q : Query) : String :=
  let key := stripStr (pyOrStr q.location q.keyword)
  stripStr (String.intercalate " " ((key :: qFeats q).filter (fun p => p ≠ "")))

/-- The regex location fallback `$or` of tier 4. -/
def locOr (key : String) : MFilter :=
  orList
    [.cnd .display_address (.regex key),
     .cnd .address_postcode (.regex key),
     .cnd .address_full_address (.regex key),
     .cnd .address_locality (.regex key),
     .cnd .address_suburb_or_town (.regex key),
     .cnd .location_terms (.regex key),
     .cnd .advert_body (.regex key),
     .cnd .highlights_description (.regex key),
     .cnd .features (.regex key)]

/-! ## Stable descending sort (Python `list.sort(key=..., reverse=True)` and
the model of Mongo's sort over the collection's natural order) -/

/-- Insert `x` after every element `y` with `ge y x` (so equal keys keep
their original relative order — Python's sort is stable). -/
def insDesc (ge : α → α → Bool) (x : α) : List α → List α
  | [] => [x]
  | y :: ys => if ge y x then y :: insDesc ge x ys else x :: y :: ys

/-- Stable descending insertion sort: elements are inserted in list order. -/
def sortDesc (ge : α → α → Bool) (l : List α) : List α :=
  l.foldl (fun acc x => insDesc ge x acc) []

/-! ## Tier runner and `find_best` (`src/lib/property_search.py`)

The document store is a `List Listing` in natural (insertion) order; the
text-search capability (`$text` match plus `textScore`) is an abstract
parameter `txt : String → Listing → Option ℚ` — `txt terms d = some s`
means `d` matches the search string `terms` with relevance score `s`.
Mongo's order among sort-key ties is unspecified; the model resolves ties
stably by collection order. -/

/-- Python `round(x, 3)`: round half to even at the third decimal. -/
def round3 (x : ℚ) : ℚ :=
  let y := x * 1000
  let f := ⌊y⌋
  let r : ℤ :=
    if y - f < 1/2 then f
    else if (1 : ℚ)/2 < y - f then f + 1
    else if f % 2 = 0 then f else f + 1
  (r : ℚ) / 1000

/-- Descending comparison of `updated_at` keys; a missing timestamp sorts
below every present one (BSON null ordering). -/
def updGe : Option Nat → Option Nat → Bool
  | some a, some b => b ≤ a
  | some _, none => true
  | none, some _ => false
  | none, none => true

/-- The `(textScore desc, updated_at desc)` sort key of the text tiers. -/
def mongoTextGe (txt : String → Listing → Option ℚ) (terms : String)
    (a b : Listing) : Bool :=
  let ta := (txt terms a).getD 0
  let tb := (txt terms b).getD 0
  if tb < ta then true
  else if ta = tb then updGe a.updated_at b.updated_at
  else false

/-- The `_rankScore` descending key of the final Python `list.sort`. -/
def scoreGe (a b : Listing × ℚ) : Bool := b.2 ≤ a.2

/-- `_run_tier`: build the tier's filter, fetch (text search or regex
fallback, limit 40), attach `_score`, and sort by rank score descending. -/
def runTier (db : List Listing) (txt : String → Listing → Option ℚ) (q : Query)
    (text apply_price apply_beds : Bool) : List (Listing × ℚ) :=
  let base := base_filter q true
  let andTerms :=
    (if apply_price then price_filter_or q.purpose q.price_min q.price_max else none).toList
    ++ (if apply_beds then beds_filter_or q.beds_min else none).toList
    ++ (if apply_beds then baths_filter_or q.baths_min else none).toList
  let base1 := if andTerms.isEmpty then base else andList (base :: andTerms)
  if text then
    let terms := text_terms q
    if terms = "" then []
    else
      let matched := db.filter (fun d => evalFilter base1 d && (txt terms d).isSome)
      let fetched := (sortDesc (mongoTextGe txt terms) matched).take 40
      sortDesc scoreGe (fetched.map (fun d => (d, score d q ((txt terms d).getD 0))))
  else
    let key := stripStr (pyOrStr q.location q.keyword)
    let base2 := if key ≠ "" then andList [base1, locOr key] else base1
    let fetched :=
      (sortDesc (fun a b => updGe a.updated_at b.updated_at)
        (db.filter (evalFilter base2))).take 40
    sortDesc scoreGe (fetched.map (fun d => (d, score d q 0)))

/-- One debug-trace value: the id-lookup `{"candidates": 1}` entry, or a
tier's top-5 `[{"_id": ..., "score": round(..., 3)}]` list. -/
inductive DebugVal where
  | candidates (n : Nat)
  | entries (l : List (Option String × ℚ))
deriving DecidableEq, Repr

abbrev Debug := List (String × DebugVal)

/-- `debug[name] = [{"_id": ..., "score": ...} for d in docs[:5]]`. -/
def top5 (docs : List (Listing × ℚ)) : DebugVal :=
  .entries ((docs.take 5).map (fun d => (d.1._id, round3 d.2)))

/-- The fixed tier table of `find_best`:
`(name, text, apply_price, apply_beds)`. -/
def tierCfgs : List (String × Bool × Bool × Bool) :=
  [("text_strict", true, true, true),
   ("text_no_price", true, false, true),
   ("text_no_beds", true, true, false),
   ("regex_fallback", false, false, false)]

/-- The tier loop of `find_best`: record each attempted tier's top-5 in the
debug dict (insertion order), return the top candidate of the first tier
with results, or `(None, "none", debug)` after the last tier. -/
def goTiers (db : List Listing) (txt : String → Listing → Option ℚ) (q : Query) :
    List (String × Bool × Bool × Bool) → Debug → Option Listing × String × Debug
  | [], debug => (none, "none", debug)
  | (name, text, ap, ab) :: rest, debug =>
      let docs := runTier db txt q text ap ab
      let debug1 := debug ++ [(name, top5 docs)]
      match docs with
      | [] => goTiers db txt q rest debug1
      | d :: _ => (some d.1, name, debug1)

/-- `find_one({"_id": str(v)}) or find_one({"id": str(v)})`. -/
def findById (db : List Listing) (s : String) : Option Listing :=
  match db.find? (fun d => d._id = some s) with
  | some d => some d
  | none => db.find? (fun d => d.id = some s)

/-- The quick-exact-id loop of `find_best` over the keys
`("listing_id", "_id", "id")`: a truthy value whose lookup misses does not
stop the loop. -/
def idLookupVals (db : List Listing) : List (Option String) → Option Listing
  | [] => none
  | v :: rest =>
      if tstr v then
        match findById db (v.getD "") with
        | some d => some d
        | none => idLookupVals db rest
      else idLookupVals db rest

def idLookup (q : Query) (db : List Listing) : Option Listing :=
  idLookupVals db [q.listing_id, q._id, q.id]

/-- `if not q.get("location") and q.get("keyword"): q["location"] = q["keyword"]`. -/
def unifyLoc (q : Query) : Query :=
  if !tstr q.location && tstr q.keyword then {q with location := q.keyword} else q

/-- `PropertyRepository.find_best` (lib variant): unify location/keyword,
try the exact-id lookup, then the four relaxation tiers. -/
def findBest (db : List Listing) (txt : String → Listing → Option ℚ)
    (query : Query) : Option Listing × String × Debug :=
  let q := unifyLoc query
  match idLookup q db with
  | some doc => (some doc, "id_exact", [("candidates", .candidates 1)])
  | none => goTiers db txt q tierCfgs []

/-! ## Legacy engine (`src/property_search.py`): `PropertyRepository.find_one`

The repository keeps an older variant of the same engine with its own
(smaller) vocabulary tables, a 0.8 fuzzy cutoff, no scoring, and — unlike
the lib variant — an explicit keyword validation that raises
`ValueError("keyword required")`. -/

namespace Legacy

/-- `_LOOKUP` of the legacy variant (synonyms only, no self-entries for the
canonical keys, no "mews"/"mews home"/"boat"). -/
def subcatPairs : List (String × String) :=
  [("detached house", "house"), ("semi-detached house", "house"),
   ("terraced house", "house"), ("end of terrace house", "house"),
   ("mid terrace house", "house"), ("town house", "house"),
   ("mews house", "house"), ("character property", "house"),
   ("apartment", "flat"), ("apartments", "flat"), ("studio", "flat"),
   ("duplex", "flat"), ("flat", "flat"), ("penthouse", "flat"),
   ("maisonette", "flat"),
   ("house boat", "other"), ("houseboat", "other")]

def subcatKeys : List String := subcatPairs.map Prod.fst

/-- `normalise_subcategory`: casefold+strip, exact lookup, fuzzy fallback
with cutoff `0.8`. -/
def normalise_subcategory (user_value : String) : Option String :=
  if user_value = "" then none
  else
    let val := stripStr (lowerStr user_value)
    match subcatPairs.lookup val with
    | some c => some c
    | none =>
        match getCloseMatch1 val subcatKeys 4 5 with
        | some hit => subcatPairs.lookup hit
        | none => none

/-- The legacy `_FEATURE_MAP`. -/
def featurePairs : List (String × List String) :=
  [("private garden", ["garden", "roof garden", "roof terrace"]),
   ("stairs", ["stairs", "internal staircase", "duplex"]),
   ("off-street parking", ["off street", "private parking", "driveway"]),
   ("double garage", ["double garage", "garage en bloc"]),
   ("lift", ["lift", "elevator"]),
   ("balcony", ["balcony", "front terrace"])]

/-- `_normalise_feature` (casefold+strip; first table hit wins). -/
def normalise_feature (term : String) : String :=
  let t := stripStr (lowerStr term)
  match featurePairs.find? (fun p => t = p.1 || p.2.contains t) with
  | some p => p.1
  | none => t

/-- The tier loop of `find_one`: text tiers take the single best text-score
match, the regex tier the first match in collection order. -/
def findLoop (db : List Listing) (txt : String → Listing → Option ℚ)
    (terms : String) : List (String × Bool × MFilter) → Option (Listing × String)
  | [] => none
  | (name, isText, f) :: rest =>
      let doc? :=
        if isText then
          (sortDesc (fun a b =>
              decide (((txt terms b).getD 0) ≤ ((txt terms a).getD 0)))
            (db.filter (fun d => evalFilter f d && (txt terms d).isSome))).head?
        else (db.filter (evalFilter f)).head?
      match doc? with
      | some d => some (d, name)
      | none => findLoop db txt terms rest

/-- `PropertyRepository.find_one` (legacy variant): raises
`ValueError("keyword required")` on a falsy/blank keyword, then runs the
tiers `full → no_price → no_beds_baths → location_only`. -/
def find_one (db : List Listing) (txt : String → Listing → Option ℚ)
    (p : Query) : Except String (Option Listing × String) :=
  let key := stripStr (if tstr p.keyword then p.keyword.getD "" else "")
  if key = "" then .error "keyword required"
  else
    let canon := normalise_subcategory (p.subcategory.getD "")
    let base := andList
      ((if tstr p.purpose && (p.purpose.getD "" ≠ "all" : Bool) then
          [MFilter.cnd .purpose (.eqStr (p.purpose.getD ""))] else [])
       ++ (match canon with
           | some c => [MFilter.cnd .subcategories (.regex c)]
           | none => [])
       ++ (if p.status = some "current" || p.status = some "sold" then
          [MFilter.cnd .status (.eqStr (p.status.getD ""))] else []))
    let feats := p.features.map normalise_feature
    let terms := stripStr (String.intercalate " " (key :: feats))
    let orBucket :=
      [MFilter.cnd .address_postcode (.regex key),
       MFilter.cnd .address_locality (.regex key),
       MFilter.cnd .address_suburb_or_town (.regex key),
       MFilter.cnd .address_full_address (.regex key),
       MFilter.cnd .advert_heading (.regex key),
       MFilter.cnd .advert_body (.regex key),
       MFilter.cnd .highlights_description (.regex key),
       MFilter.cnd .features (.regex key)]
      ++ feats.flatMap (fun fv =>
        [MFilter.cnd .features (.regex fv),
         MFilter.cnd .highlights_description (.regex fv),
         MFilter.cnd .advert_body (.regex fv)])
    let priceF : List MFilter :=
      if p.price_min = none && p.price_max = none then []
      else [.cnd .price_match_sale (.range p.price_min p.price_max)]
    let bedsF : List MFilter :=
      (match p.beds_min with
       | some m => [.cnd .attributes_bedrooms (.range (some m) none)]
       | none => [])
      ++ (match p.baths_min with
       | some m => [.cnd .attributes_bathrooms (.range (some m) none)]
       | none => [])
    let tiers : List (String × Bool × MFilter) :=
      [("full", true, andList (base :: (priceF ++ bedsF))),
       ("no_price", true, andList (base :: bedsF)),
       ("no_beds_baths", true, andList (base :: priceF)),
       ("location_only", false, MFilter.conj base (orList orBucket))]
    match findLoop db txt terms tiers with
    | some (d, name) => .ok (some d, name)
    | none => .ok (none, "none")

end Legacy

/-! ## Spec-side comparison definitions

Each of the following follows the specification's words, not the source; it
exists only to be compared against the corresponding source-derived
definition. -/

/-- Modelled from the spec: "a listing matches if *either* its sale numeric
price *or* its unified sort price *or* its rent-per-month numeric price
falls within `[price_min, price_max]` (whichever bound is present); this is
an OR across price representations" — with no conditioning on the query's
purpose. -/
def specPricePassOr (l : Listing) (pmin pmax : Option Int) : Bool :=
  [l.price_sale_gbp, l.price_sort_gbp, l.price_rent_pcm_gbp].any (fun v =>
    match v with
    | some (.vint n) => pmin.all (fun a => a ≤ n) && pmax.all (fun b => n ≤ b)
    | _ => false)

/-- Modelled from the spec: the price-closeness term — "compute the midpoint
of the effective range (missing bound defaults to the listing's own price),
take normalized distance `|price − mid| / max(1, range_width)`, clamp to
[0,1], and add `2.0 × (1 − distance)`"; flat `+0.25` with no bounds. -/
def specPriceCloseness (price : Int) (pmin pmax : Option Int) : ℚ :=
  if pmin.isSome || pmax.isSome then
    let lo : ℚ := ((pmin.getD price : Int) : ℚ)
    let hi : ℚ := ((pmax.getD price : Int) : ℚ)
    let mid := (lo + hi) / 2
    let d := min 1 (|(price : ℚ) - mid| / max 1 (hi - lo))
    2 * (1 - d)
  else 1/4

/-- The effective lower bound `lo = pmin or price` of the price-closeness
block (a falsy bound defaults to the listing's own price). -/
def effLo (q : Query) (p : Int) : ℚ :=
  if tint q.price_min then (q.price_min.getD 0 : ℚ) else (p : ℚ)

/-- The effective upper bound `hi = pmax or price`. -/
def effHi (q : Query) (p : Int) : ℚ :=
  if tint q.price_max then (q.price_max.getD 0 : ℚ) else (p : ℚ)

/-- The midpoint `mid = (lo + hi) / 2.0` of the effective range. -/
def effMid (q : Query) (p : Int) : ℚ := (effLo q p + effHi q p) / 2

/-! ## Helper lemmas about the stable sort -/

theorem mem_insDesc (ge : α → α → Bool) (x : α) (l : List α) (y : α) :
    y ∈ insDesc ge x l ↔ y = x ∨ y ∈ l := by
  induction l with
  | nil => simp [insDesc]
  | cons z zs ih =>
      simp only [insDesc]
      by_cases h : ge z x = true
      · simp [h, ih]
        tauto
      · simp [h]

theorem mem_sortDesc_aux (ge : α → α → Bool) (l acc : List α) (y : α) :
    y ∈ l.foldl (fun acc x => insDesc ge x acc) acc ↔ y ∈ acc ∨ y ∈ l := by
  induction l generalizing acc with
  | nil => simp
  | cons z zs ih =>
      simp only [List.foldl_cons, ih, mem_insDesc, List.mem_cons]
      tauto

theorem mem_sortDesc (ge : α → α → Bool) (l : List α) (y : α) :
    y ∈ sortDesc ge l ↔ y ∈ l := by
  simp [sortDesc, mem_sortDesc_aux]

theorem pairwise_insDesc (ge : α → α → Bool)
    (htot : ∀ a b, ge a b = true ∨ ge b a = true)
    (htrans : ∀ a b c, ge a b = true → ge b c = true → ge a c = true)
    (x : α) (l : List α) (h : l.Pairwise (fun a b => ge a b = true)) :
    (insDesc ge x l).Pairwise (fun a b => ge a b = true) := by
  induction l with
  | nil => simp [insDesc]
  | cons z zs ih =>
      rcases List.pairwise_cons.mp h with ⟨hz, hzs⟩
      simp only [insDesc]
      by_cases hge : ge z x = true
      · simp only [hge, if_true]
        refine List.pairwise_cons.mpr ⟨?_, ih hzs⟩
        intro b hb
        rcases (mem_insDesc ge x zs b).mp hb with rfl | hb
        · exact hge
        · exact hz b hb
      · simp only [hge, if_false]
        have hxz : ge x z = true := (htot x z).resolve_right (by
          intro hc; exact hge hc)
        refine List.pairwise_cons.mpr ⟨?_, h⟩
        intro b hb
        rcases List.mem_cons.mp hb with rfl | hb
        · exact hxz
        · exact htrans x z b hxz (hz b hb)

theorem pairwise_sortDesc_aux (ge : α → α → Bool)
    (htot : ∀ a b, ge a b = true ∨ ge b a = true)
    (htrans : ∀ a b c, ge a b = true → ge b c = true → ge a c = true)
    (l acc : List α) (hacc : acc.Pairwise (fun a b => ge a b = true)) :
    (l.foldl (fun acc x => insDesc ge x acc) acc).Pairwise (fun a b => ge a b = true) := by
  induction l generalizing acc with
  | nil => simpa using hacc
  | cons z zs ih =>
      simp only [List.foldl_cons]
      exact ih _ (pairwise_insDesc ge htot htrans z acc hacc)

theorem pairwise_sortDesc (ge : α → α → Bool)
    (htot : ∀ a b, ge a b = true ∨ ge b a = true)
    (htrans : ∀ a b c, ge a b = true → ge b c = true → ge a c = true)
    (l : List α) :
    (sortDesc ge l).Pairwise (fun a b => ge a b = true) :=
  pairwise_sortDesc_aux ge htot htrans l [] (by simp)


/-- Head of the stable descending sort has a maximal key: specialization to
the `_rankScore` ordering used by `_run_tier`. -/
theorem head_max_sortDesc_score (l : List (Listing × ℚ)) (d : Listing × ℚ)
    (ds : List (Listing × ℚ)) (h : sortDesc scoreGe l = d :: ds) :
    ∀ x ∈ sortDesc scoreGe l, x.2 ≤ d.2 := by
  have hp := pairwise_sortDesc scoreGe
    (fun a b => by unfold scoreGe; rcases le_total b.2 a.2 with h1 | h1 <;> simp [h1])
    (fun a b c => by unfold scoreGe; intro h1 h2; simp only [decide_eq_true_eq] at *; exact le_trans h2 h1)
    l
  rw [h] at hp
  rcases List.pairwise_cons.mp hp with ⟨hd, _⟩
  intro x hx
  rw [h] at hx
  rcases List.mem_cons.mp hx with rfl | hx
  · exact le_refl _
  · have := hd x hx
    unfold scoreGe at this
    simpa using this

/-- Values produced by an association-list lookup come from the table. -/
theorem lookup_mem_snd {α β : Type} [BEq α] (x : α) (l : List (α × β)) (c : β)
    (h : List.lookup x l = some c) : c ∈ l.map Prod.snd := by
  induction l with
  | nil => simp [List.lookup] at h
  | cons p ps ih =>
      rw [List.lookup] at h
      by_cases hx : (x == p.1) = true
      · simp only [hx, cond_true] at h
        injection h with h
        subst h
        simp
      · simp only [Bool.not_eq_true] at hx
        simp only [hx, cond_false] at h
        simpa using Or.inr (ih h)

/-- Claim C9: `norm_feature` maps "roof garden" and "roof terrace" to the
same canonical amenity "private garden", and an input matching no canonical
name and no synonym is returned lower-cased and trimmed, never dropped. -/
theorem norm_feature_c9 :
    norm_feature "roof garden" = "private garden" ∧
    norm_feature "roof terrace" = "private garden" ∧
    ∀ term : String,
      (∀ p ∈ featurePairs,
        (lowerStr (stripStr term) = p.1 || p.2.contains (lowerStr (stripStr term))) = false) →
      norm_feature term = lowerStr (stripStr term) := by
  refine ⟨rfl, rfl, ?_⟩
  intro term h
  have hf : featurePairs.find?
      (fun p => lowerStr (stripStr term) = p.1 || p.2.contains (lowerStr (stripStr term))) = none := by
    rw [List.find?_eq_none]
    intro p hp
    rw [h p hp]
    simp
  simp only [norm_feature, hf]

/-- Claim C9 witness: a term outside the amenity vocabulary round-trips to
its lower-cased trimmed form. -/
theorem norm_feature_c9_witness :
    norm_feature " Granite Worktop " = lowerStr (stripStr " Granite Worktop ") :=
  norm_feature_c9.2.2 " Granite Worktop " (by decide)

/-- Claim C10 counterexample: the integer `0` is accepted by Python's
`int()`, yet `_intish(0)` is `None`, because the guard
`v in (None, "", False)` compares with `==` and `0 == False` in Python — so
"values accepted by int() parse directly" fails at `0`. -/
theorem intish_c10_counterexample :
    intish (some (PyVal.vint 0)) = none ∧ intish (some (PyVal.vint 0)) ≠ some 0 := by
  exact ⟨rfl, by decide⟩

/-- Claim C10 (amended: the integer `0` — Python-equal to `False` — also
parses to `None`; every other `int()`-accepted value parses directly):
`_intish` is total with `None`/`""`/`False`/`0 ↦ None`; nonzero integers and
`True` parse directly, as does any string `int()` accepts; any other string
is reduced to its digit characters, `None` if there are none;
`"£1,250,000" ↦ 1250000` and `"4.5" ↦ 45`. -/
theorem intish_c10 :
    (intish none = none ∧ intish (some (.vstr "")) = none ∧
     intish (some (.vbool false)) = none ∧ intish (some (.vint 0)) = none) ∧
    (∀ n : Int, n ≠ 0 → intish (some (.vint n)) = some n) ∧
    intish (some (.vbool true)) = some 1 ∧
    (∀ s n, s ≠ "" → pyIntOfString s = some n → intish (some (.vstr s)) = some n) ∧
    (∀ s, s ≠ "" → pyIntOfString s = none →
      intish (some (.vstr s)) =
        (if (s.data.filter isDigitCh).isEmpty then none
         else some (natOfDigits (s.data.filter isDigitCh) : Int))) ∧
    intish (some (.vstr "£1,250,000")) = some 1250000 ∧
    intish (some (.vstr "4.5")) = some 45 := by
  refine ⟨⟨rfl, rfl, rfl, rfl⟩, ?_, rfl, ?_, ?_, rfl, rfl⟩
  · intro n hn
    simp [intish, intishGuard, hn, pyInt]
  · intro s n hs hp
    simp [intish, intishGuard, hs, pyInt, hp]
  · intro s hs hp
    simp [intish, intishGuard, hs, pyInt, hp, pyStr]

/-- Claim C10 witness: a nonzero integer parses directly and a failed
`int()` string falls back to digit extraction. -/
theorem intish_c10_witness :
    intish (some (.vint 7)) = some 7 ∧
    intish (some (.vstr "4.5")) =
      (if ("4.5".data.filter isDigitCh).isEmpty then none
       else some (natOfDigits ("4.5".data.filter isDigitCh) : Int)) :=
  ⟨intish_c10.2.1 7 (by decide), intish_c10.2.2.2.2.1 "4.5" (by decide) (by decide)⟩

/-- Claim C5 counterexample: the source's fuzzy cutoff is `0.82`, not the
claimed `0.8` — on `"flatxy"` (similarity to `"flat"` exactly `0.8`) the
code returns `None` while the claimed cutoff-0.8 resolver returns "flat". -/
theorem canonical_subcategory_c5_counterexample :
    canonical_subcategory "flatxy" = none ∧
    canonicalSubcategorySpec08 "flatxy" = some "flat" := by
  exact ⟨by decide, by decide⟩

/-- Claim C5 (amended: the fuzzy similarity cutoff is `0.82`, not `0.8`):
`canonical_subcategory` case-folds and trims, resolves exactly against the
synonym table and otherwise fuzzily at cutoff `0.82`; "Penthouse" ↦ "flat",
"terraced house" ↦ "house", "xyz-unknown-token" ↦ `None`, and every
non-`None` result lies in {house, flat, other}. -/
theorem canonical_subcategory_c5 :
    canonical_subcategory "Penthouse" = some "flat" ∧
    canonical_subcategory "terraced house" = some "house" ∧
    canonical_subcategory "xyz-unknown-token" = none ∧
    ∀ val r, canonical_subcategory val = some r →
      r = "house" ∨ r = "flat" ∨ r = "other" := by
  refine ⟨by decide, by decide, by decide, ?_⟩
  intro val r h
  have hall : ∀ c ∈ subcatPairs.map Prod.snd,
      c = "house" ∨ c = "flat" ∨ c = "other" := by decide
  unfold canonical_subcategory at h
  by_cases hv : val = ""
  · simp [hv] at h
  · simp only [hv, if_false] at h
    cases hl : subcatPairs.lookup (lowerStr (stripStr val)) with
    | some c =>
        rw [hl] at h
        injection h with h
        exact h ▸ hall c (lookup_mem_snd _ _ _ hl)
    | none =>
        rw [hl] at h
        cases hg : getCloseMatch1 (lowerStr (stripStr val)) subcatKeys 41 50 with
        | some hit =>
            rw [hg] at h
            exact hall r (lookup_mem_snd _ _ _ h)
        | none => rw [hg] at h; cases h

/-- Claim C5 witness: instantiating the closed-range fact at "houseboat". -/
theorem canonical_subcategory_c5_witness :
    canonical_subcategory "houseboat" = some "other" ∧
    ("other" = "house" ∨ "other" = "flat" ∨ "other" = "other") :=
  ⟨by decide, canonical_subcategory_c5.2.2.2 "houseboat" "other" (by decide)⟩

/-- Claim C7 counterexample: with `beds_min` set to `0` (a value the data
model allows — bounds are non-negative), the beds term of a listing with
unknown beds is `0`, not the claimed `−0.25`: `if want_beds:` is a
truthiness test, so a zero minimum disables the term entirely. -/
theorem beds_term_c7_counterexample :
    bedsTerm {} {beds_min := some 0} = 0 ∧ (0 : ℚ) ≠ -(1/4 : ℚ) := by
  exact ⟨rfl, by norm_num⟩

/-- Claim C7 (amended: for every query with beds_min set to a *positive*
value — a zero minimum is falsy and produces no term): unknown beds
contribute exactly −0.25, a shortfall contributes −1.0 per unit short
(strictly negative), meeting the minimum contributes
`min(2.0, 0.6 + 0.2·surplus)` (strictly positive); baths analogously with
−0.8 per unit short and bonus `min(1.7, 0.5 + 0.2·surplus)`. -/
theorem beds_baths_term_c7 (q : Query) (l : Listing) (m : Int) (hm : 0 < m) :
    (q.beds_min = some m →
      (bedsOf l = none → bedsTerm l q = -(1/4 : ℚ)) ∧
      (∀ b, bedsOf l = some b → b < m →
        bedsTerm l q = -(((m - b : Int) : ℚ)) ∧ bedsTerm l q < 0) ∧
      (∀ b, bedsOf l = some b → m ≤ b →
        bedsTerm l q = min 2 (3/5 + (1/5) * ((b - m : Int) : ℚ)) ∧ 0 < bedsTerm l q)) ∧
    (q.baths_min = some m →
      (bathsOf l = none → bathsTerm l q = -(1/4 : ℚ)) ∧
      (∀ b, bathsOf l = some b → b < m →
        bathsTerm l q = -(((m - b : Int) : ℚ) * (4/5)) ∧ bathsTerm l q < 0) ∧
      (∀ b, bathsOf l = some b → m ≤ b →
        bathsTerm l q = min (17/10) (1/2 + (1/5) * ((b - m : Int) : ℚ)) ∧
          0 < bathsTerm l q)) := by
  have hm0 : ¬ (m = 0) := by omega
  constructor
  · intro hq
    refine ⟨?_, ?_, ?_⟩
    · intro hb; simp [bedsTerm, hq, hm0, hb]
    · intro b hb hlt
      have h1 : bedsTerm l q = -(((m - b : Int) : ℚ)) := by
        simp [bedsTerm, hq, hm0, hb, hlt]
      refine ⟨h1, ?_⟩
      rw [h1]
      have h2 : (1 : ℚ) ≤ ((m - b : Int) : ℚ) := by
        exact_mod_cast (by omega : (1 : Int) ≤ m - b)
      linarith
    · intro b hb hle
      have hnlt : ¬ (b < m) := not_lt.mpr hle
      have h1 : bedsTerm l q = min 2 (3/5 + (1/5) * ((b - m : Int) : ℚ)) := by
        simp [bedsTerm, hq, hm0, hb, hnlt]
      refine ⟨h1, ?_⟩
      rw [h1]
      have hc : (0 : ℚ) ≤ ((b - m : Int) : ℚ) := by
        exact_mod_cast (by omega : (0 : Int) ≤ b - m)
      exact lt_min (by norm_num) (by linarith)
  · intro hq
    refine ⟨?_, ?_, ?_⟩
    · intro hb; simp [bathsTerm, hq, hm0, hb]
    · intro b hb hlt
      have h1 : bathsTerm l q = -(((m - b : Int) : ℚ) * (4/5)) := by
        simp [bathsTerm, hq, hm0, hb, hlt]
      refine ⟨h1, ?_⟩
      rw [h1]
      have h2 : (1 : ℚ) ≤ ((m - b : Int) : ℚ) := by
        exact_mod_cast (by omega : (1 : Int) ≤ m - b)
      linarith
    · intro b hb hle
      have hnlt : ¬ (b < m) := not_lt.mpr hle
      have h1 : bathsTerm l q = min (17/10) (1/2 + (1/5) * ((b - m : Int) : ℚ)) := by
        simp [bathsTerm, hq, hm0, hb, hnlt]
      refine ⟨h1, ?_⟩
      rw [h1]
      have hc : (0 : ℚ) ≤ ((b - m : Int) : ℚ) := by
        exact_mod_cast (by omega : (0 : Int) ≤ b - m)
      exact lt_min (by norm_num) (by linarith)

/-- Claim C7 witness: `beds_min = baths_min = 2` against a listing with no
beds/baths data gives exactly −0.25 on each term. -/
theorem beds_baths_term_c7_witness :
    bedsTerm {} {beds_min := some 2, baths_min := some 2} = -(1/4 : ℚ) ∧
    bathsTerm {} {beds_min := some 2, baths_min := some 2} = -(1/4 : ℚ) := by
  have h := beds_baths_term_c7 {beds_min := some 2, baths_min := some 2} {} 2 (by norm_num)
  exact ⟨(h.1 rfl).1 rfl, (h.2 rfl).1 rfl⟩

/-- Claim C6 counterexample: with `price_min = price_max = 100` and a
listing priced 150, the code's denominator is `max(1, mid) = 100` (the
`hi > lo` branch fails), giving term `1.0`; the claimed formula
`|price − mid| / max(1, range_width)` gives distance `50/1`, clamped to 1,
hence term `0.0`. -/
theorem price_term_c6_counterexample :
    priceTerm {price_sale_gbp := some (.vint 150)}
      {price_min := some 100, price_max := some 100} = 1 ∧
    price_numeric {price_sale_gbp := some (.vint 150)} none = some 150 ∧
    specPriceCloseness 150 (some 100) (some 100) = 0 := by
  have hp : price_numeric {price_sale_gbp := some (.vint 150)} none = some 150 := by decide
  refine ⟨?_, hp, ?_⟩
  · have h1 : priceTerm {price_sale_gbp := some (.vint 150)}
        {price_min := some 100, price_max := some 100} =
        2 * max 0 (1 - min 1 (|(150 : ℚ) - (100 + 100) / 2| /
          (if (100 : ℚ) < 100 then max 1 ((100 : ℚ) - 100) else max 1 ((100 + 100) / 2)))) := by
      simp only [priceTerm, hp]
      norm_num [tint]
    rw [h1, if_neg (by norm_num), show |(150 : ℚ) - (100 + 100) / 2| = 50 by norm_num [abs],
      show max (1 : ℚ) ((100 + 100) / 2) = 100 by rw [max_eq_right] <;> norm_num,
      show min (1 : ℚ) (50 / 100) = 1/2 by rw [min_eq_right] <;> norm_num,
      show max (0 : ℚ) (1 - 1/2) = 1/2 by rw [max_eq_right] <;> norm_num]
    norm_num
  · simp only [specPriceCloseness, Option.isSome_some, Bool.or_self, if_true,
      Option.getD_some]
    push_cast
    rw [show ((100 : ℚ) + 100) / 2 = 100 by norm_num,
      show max (1 : ℚ) ((100 : ℚ) - 100) = 1 by rw [max_eq_left] <;> norm_num,
      show |(150 : ℚ) - 100| = 50 by norm_num [abs],
      show min (1 : ℚ) (50 / 1) = 1 by rw [min_eq_left] <;> norm_num]
    norm_num

/-- Claim C6 (amended: the normalizing denominator is `max(1, hi − lo)` only
when `hi > lo`; when `hi ≤ lo` — in particular when `price_min = price_max`
— it is `max(1, mid)`; bounds are detected by truthiness, so a zero bound
counts as absent): price term `2·(1 − d)` against the effective range, flat
`+0.25` with no truthy bounds, and the full `2.0` at the midpoint, including
`price_min = price_max` with the price exactly on that bound. -/
theorem price_term_c6 (l : Listing) (q : Query) (p : Int)
    (hp : price_numeric l q.purpose = some p) (hp0 : p ≠ 0) :
    ((tint q.price_min || tint q.price_max) = true → effLo q p < effHi q p →
      priceTerm l q =
        2 * (1 - min 1 (|(p : ℚ) - effMid q p| / max 1 (effHi q p - effLo q p)))) ∧
    ((tint q.price_min || tint q.price_max) = true → effHi q p ≤ effLo q p →
      priceTerm l q =
        2 * max 0 (1 - min 1 (|(p : ℚ) - effMid q p| / max 1 (effMid q p)))) ∧
    ((tint q.price_min || tint q.price_max) = false → priceTerm l q = 1/4) ∧
    (∀ a b : Int, q.price_min = some a → q.price_max = some b → a ≠ 0 → b ≠ 0 →
      (p : ℚ) = ((a : ℚ) + (b : ℚ)) / 2 → priceTerm l q = 2) ∧
    (∀ a : Int, q.price_min = some a → q.price_max = some a → a ≠ 0 → p = a →
      priceTerm l q = 2) := by
  have hkey : priceTerm l q =
      (if (tint q.price_min || tint q.price_max) = true then
        2 * max 0 (1 - min 1 (|(p : ℚ) - effMid q p| /
          (if effLo q p < effHi q p then max 1 (effHi q p - effLo q p)
           else max 1 (effMid q p))))
      else 1/4) := by
    simp only [priceTerm, hp]
    rw [if_neg hp0]
    simp only [effMid, effLo, effHi]
  refine ⟨?_, ?_, ?_, ?_, ?_⟩
  · intro hb hlt
    rw [hkey, if_pos hb, if_pos hlt]
    have hle : min 1 (|(p : ℚ) - effMid q p| / max 1 (effHi q p - effLo q p)) ≤ 1 :=
      min_le_left _ _
    rw [max_eq_right (by linarith)]
  · intro hb hge
    rw [hkey, if_pos hb, if_neg (not_lt.mpr hge)]
  · intro hb
    rw [hkey, hb]
    simp
  · intro a b ha hb ha0 hb0 hmid
    have hta : tint q.price_min = true := by simp [tint, ha, ha0]
    have htb : tint q.price_max = true := by simp [tint, hb, hb0]
    have h1 : tint (some a) = true := by simp [tint, ha0]
    have h2 : tint (some b) = true := by simp [tint, hb0]
    have hnum : |(p : ℚ) - effMid q p| = 0 := by
      simp only [effMid, effLo, effHi, ha, hb, Option.getD_some, h1, h2, if_true]
      rw [hmid, sub_self, abs_zero]
    rw [hkey, if_pos (by simp [hta, htb]), hnum]
    norm_num
  · intro a ha hb ha0 hpa
    have hta : tint q.price_min = true := by simp [tint, ha, ha0]
    have htb : tint q.price_max = true := by simp [tint, hb, ha0]
    have h1 : tint (some a) = true := by simp [tint, ha0]
    have hnum : |(p : ℚ) - effMid q p| = 0 := by
      simp only [effMid, effLo, effHi, ha, hb, Option.getD_some, h1, if_true, hpa]
      rw [add_self_div_two, sub_self, abs_zero]
    rw [hkey, if_pos (by simp [hta, htb]), hnum]
    norm_num

/-- Claim C6 witness: a listing priced exactly at the midpoint of
`[100, 200]` receives the full 2.0; one priced at `price_min = price_max`
receives it too; with no bounds the term is the flat 0.25. -/
theorem price_term_c6_witness :
    priceTerm {price_sale_gbp := some (.vint 150)}
      {price_min := some 100, price_max := some 200} = 2 ∧
    priceTerm {price_sale_gbp := some (.vint 100)}
      {price_min := some 100, price_max := some 100} = 2 ∧
    priceTerm {price_sale_gbp := some (.vint 150)} {} = 1/4 := by
  refine ⟨?_, ?_, ?_⟩
  · exact (price_term_c6 {price_sale_gbp := some (.vint 150)}
      {price_min := some 100, price_max := some 200} 150 (by decide)
      (by decide)).2.2.2.1 100 200 rfl rfl (by decide) (by decide) (by norm_num)
  · exact (price_term_c6 {price_sale_gbp := some (.vint 100)}
      {price_min := some 100, price_max := some 100} 100 (by decide)
      (by decide)).2.2.2.2 100 rfl rfl (by decide) rfl
  · exact (price_term_c6 {price_sale_gbp := some (.vint 150)} {} 150 (by decide)
      (by decide)).2.2.1 (by decide)

/-- Claim C3 counterexample: a listing with no beds data IS excluded by the
tier-1/2 beds filter (every `$or` branch requires a stored value: `$gte`
does not match a missing field and `$in` matches nothing), and with
`beds_min = 2` it is scored −0.25, not the −2.0 an actual zero-bed listing
(e.g. beds stored as "0") receives. -/
theorem beds_filter_missing_c3_counterexample :
    (beds_filter_or (some 2)).map (fun f => evalFilter f ({} : Listing)) = some false ∧
    bedsTerm {} {beds_min := some 2} = -(1/4 : ℚ) ∧
    bedsTerm {beds := some (.vstr "0")} {beds_min := some 2} = -2 := by
  refine ⟨by decide, rfl, ?_⟩
  have hb : bedsOf {beds := some (.vstr "0")} = some 0 := by decide
  simp only [bedsTerm, hb]
  norm_num

/-- Claim C3 (amended: a listing missing beds/baths data is *excluded* by
the tiers-1/2 beds/baths candidate filters, and when it reaches scoring it
contributes exactly −0.25 per unknown term, which differs from the as-if-
zero shortfall penalty −1.0·minimum). -/
theorem beds_baths_missing_c3 (l : Listing) (q : Query) (m : Int) (hm : 0 < m)
    (hb1 : l.attributes.bind Attrs.bedrooms = none)
    (hb2 : l.attributes_full.bind Attrs.bedrooms = none)
    (hb3 : l.beds = none)
    (ha1 : l.attributes.bind Attrs.bathrooms = none)
    (ha2 : l.attributes_full.bind Attrs.bathrooms = none)
    (ha3 : l.baths = none) :
    (beds_filter_or (some m)).map (fun f => evalFilter f l) = some false ∧
    (baths_filter_or (some m)).map (fun f => evalFilter f l) = some false ∧
    (q.beds_min = some m → bedsTerm l q = -(1/4 : ℚ)) ∧
    (q.baths_min = some m → bathsTerm l q = -(1/4 : ℚ)) ∧
    -(1/4 : ℚ) ≠ -((m : Int) : ℚ) := by
  have hm0 : ¬ (m = 0) := by omega
  have htm : tint (some m) = true := by simp [tint, hm0]
  have hbeds : bedsOf l = none := by
    simp [bedsOf, hb1, hb2, hb3, intish]
  have hbaths : bathsOf l = none := by
    simp [bathsOf, ha1, ha2, ha3, intish]
  refine ⟨?_, ?_, ?_, ?_, ?_⟩
  · simp [beds_filter_or, htm, orList, evalFilter, getVals, hb1, hb2, hb3]
  · simp [baths_filter_or, htm, orList, evalFilter, getVals, ha1, ha2, ha3]
  · intro hq; simp [bedsTerm, hq, hm0, hbeds]
  · intro hq; simp [bathsTerm, hq, hm0, hbaths]
  · intro hcontra
    have h1 : (1 : ℚ) ≤ ((m : Int) : ℚ) := by exact_mod_cast hm
    have h2 : (1/4 : ℚ) = ((m : Int) : ℚ) := by linarith [neg_injective hcontra]
    linarith

/-- Claim C3 witness: the empty listing against `beds_min = baths_min = 2`. -/
theorem beds_baths_missing_c3_witness :
    (beds_filter_or (some 2)).map (fun f => evalFilter f ({} : Listing)) = some false ∧
    bedsTerm {} {beds_min := some 2, baths_min := some 2} = -(1/4 : ℚ) ∧
    bathsTerm {} {beds_min := some 2, baths_min := some 2} = -(1/4 : ℚ) := by
  have h := beds_baths_missing_c3 {} {beds_min := some 2, baths_min := some 2} 2
    (by norm_num) rfl rfl rfl rfl rfl rfl
  exact ⟨h.1, h.2.2.1 rfl, h.2.2.2.1 rfl⟩

/-- Mongo bound dicts applied to one optional stored value. -/
theorem any_toList_range (v : Option PyVal) (lo hi : Option Int) :
    v.toList.any (condMatches (.range lo hi)) =
      (match v with
       | some (.vint n) => lo.all (fun a => a ≤ n) && hi.all (fun b => n ≤ b)
       | _ => false) := by
  cases v with
  | none => rfl
  | some pv => cases pv <;> simp [condMatches]

/-- Claim C4 counterexample: for a rental-purpose query the price filter
checks only the rent price keys, so a listing whose *sale* price lies inside
the bounds does not pass — against the claim's unconditional OR across sale,
sort and rent representations. -/
theorem price_filter_c4_counterexample :
    (price_filter_or (some "rental") (some 100) (some 200)).map
      (fun f => evalFilter f ({price_sale_gbp := some (.vint 150)} : Listing)) =
        some false ∧
    specPricePassOr {price_sale_gbp := some (.vint 150)} (some 100) (some 200) = true := by
  exact ⟨by decide, by decide⟩

/-- Claim C4 (amended: the OR ranges over the purpose-selected price
representations — `price_rent_pcm_gbp`/`price_match_rent_pa_inc_tax_month`
for rental queries, `price_sort_gbp`/`price_sale_gbp`/`price_match_sale`
otherwise): when a bound is present a listing passes the tier-1/3 price
filter iff one of those purpose-selected numeric fields lies within the
given bounds. -/
theorem price_filter_c4 (purpose : Option String) (pmin pmax : Option Int)
    (l : Listing) (h : ¬ (pmin = none ∧ pmax = none)) :
    (price_filter_or purpose pmin pmax).map (fun f => evalFilter f l) =
      some ((if purpose = some "rental" then
          [l.price_rent_pcm_gbp, l.price_match_rent_pa_inc_tax_month]
        else [l.price_sort_gbp, l.price_sale_gbp, l.price_match_sale]).any
        (fun v => match v with
          | some (.vint n) => pmin.all (fun a => a ≤ n) && pmax.all (fun b => n ≤ b)
          | _ => false)) := by
  unfold price_filter_or
  rw [if_neg (by simp only [Bool.and_eq_true, decide_eq_true_eq]; exact fun hc => h ⟨hc.1, hc.2⟩)]
  by_cases hpur : purpose = some "rental"
  · simp only [hpur, if_true, Option.map_some', List.map, orList, List.foldr,
      evalFilter, getVals, any_toList_range, List.any_cons, List.any_nil,
      Bool.or_false]
  · simp only [hpur, if_false, Option.map_some', List.map, orList, List.foldr,
      evalFilter, getVals, any_toList_range, List.any_cons, List.any_nil,
      Bool.or_false]

/-- Claim C4 witness: a rental query's filter accepts a listing through its
rent price and the sale keys play no role. -/
theorem price_filter_c4_witness :
    (price_filter_or (some "rental") (some 100) (some 200)).map
      (fun f => evalFilter f ({price_rent_pcm_gbp := some (.vint 150)} : Listing)) =
      some (([some (PyVal.vint 150), (none : Option PyVal)]).any
        (fun v => match v with
          | some (.vint n) => (some (100 : Int)).all (fun a => a ≤ n) &&
              (some (200 : Int)).all (fun b => n ≤ b)
          | _ => false)) :=
  price_filter_c4 (some "rental") (some 100) (some 200)
    {price_rent_pcm_gbp := some (.vint 150)} (by simp)

/-- The location/keyword unification step leaves the three id keys alone. -/
theorem unifyLoc_ids (q : Query) :
    (unifyLoc q).listing_id = q.listing_id ∧ (unifyLoc q)._id = q._id ∧
    (unifyLoc q).id = q.id := by
  unfold unifyLoc
  split
  · exact ⟨rfl, rfl, rfl⟩
  · exact ⟨rfl, rfl, rfl⟩

/-- Claim C8: a query carrying a truthy direct identifier — under any of the
keys `listing_id`, `_id` or `id` (each key tried in that order) — whose
value is found in the collection short-circuits every tier: `find_best`
returns that listing with tier `id_exact` and the single-candidate debug
trace, whatever the keyword is; and whenever the id loop finds nothing (no
truthy id, or all lookups miss), the query falls through to the tier loop,
whose first tier is `text_strict`. -/
theorem find_best_id_exact_c8 (db : List Listing) (txt : String → Listing → Option ℚ)
    (query : Query) (v : String) (doc : Listing) (hne : v ≠ "")
    (hdoc : findById db v = some doc) :
    (query.listing_id = some v →
      ∀ kw : Option String,
        findBest db txt {query with keyword := kw} =
          (some doc, "id_exact", [("candidates", DebugVal.candidates 1)])) ∧
    (tstr query.listing_id = false → query._id = some v →
      ∀ kw : Option String,
        findBest db txt {query with keyword := kw} =
          (some doc, "id_exact", [("candidates", DebugVal.candidates 1)])) ∧
    (tstr query.listing_id = false → tstr query._id = false → query.id = some v →
      ∀ kw : Option String,
        findBest db txt {query with keyword := kw} =
          (some doc, "id_exact", [("candidates", DebugVal.candidates 1)])) ∧
    (∀ q2 : Query, idLookup (unifyLoc q2) db = none →
      findBest db txt q2 = goTiers db txt (unifyLoc q2) tierCfgs []) := by
  refine ⟨?_, ?_, ?_, ?_⟩
  · intro hv kw
    have hu := unifyLoc_ids {query with keyword := kw}
    have hid : idLookup (unifyLoc {query with keyword := kw}) db = some doc := by
      simp only [idLookup, hu.1, hu.2.1, hu.2.2]
      simp [idLookupVals, hv, tstr, hne, hdoc]
    simp [findBest, hid]
  · intro hl hv kw
    have hu := unifyLoc_ids {query with keyword := kw}
    have htv : tstr (some v) = true := by simp [tstr, hne]
    have hid : idLookup (unifyLoc {query with keyword := kw}) db = some doc := by
      simp only [idLookup, hu.1, hu.2.1, hu.2.2]
      simp [idLookupVals, hl, hv, htv, hdoc]
    simp [findBest, hid]
  · intro hl hm hv kw
    have hu := unifyLoc_ids {query with keyword := kw}
    have htv : tstr (some v) = true := by simp [tstr, hne]
    have hid : idLookup (unifyLoc {query with keyword := kw}) db = some doc := by
      simp only [idLookup, hu.1, hu.2.1, hu.2.2]
      simp [idLookupVals, hl, hm, hv, htv, hdoc]
    simp [findBest, hid]
  · intro q2 h2
    simp [findBest, h2]

/-- Claim C8 witness: id-bearing queries return `id_exact` despite a keyword
being present — exercised through the `listing_id` key, the `_id` key, and
the `id` key. -/
theorem find_best_id_exact_c8_witness :
    findBest [{_id := some "1"}] (fun _ _ => none)
      {listing_id := some "1", keyword := some "anything"} =
      (some {_id := some "1"}, "id_exact", [("candidates", DebugVal.candidates 1)]) ∧
    findBest [{_id := some "7"}] (fun _ _ => none)
      {_id := some "7", keyword := some "kw"} =
      (some {_id := some "7"}, "id_exact", [("candidates", DebugVal.candidates 1)]) ∧
    findBest [{id := some "2"}] (fun _ _ => none)
      {id := some "2", keyword := some "kw"} =
      (some {id := some "2"}, "id_exact", [("candidates", DebugVal.candidates 1)]) := by
  refine ⟨?_, ?_, ?_⟩
  · exact (find_best_id_exact_c8 [{_id := some "1"}] (fun _ _ => none)
      {listing_id := some "1"} "1" {_id := some "1"} (by decide) (by decide)).1
      rfl (some "anything")
  · exact (find_best_id_exact_c8 [{_id := some "7"}] (fun _ _ => none)
      {_id := some "7"} "7" {_id := some "7"} (by decide) (by decide)).2.1
      (by decide) rfl (some "kw")
  · exact (find_best_id_exact_c8 [{id := some "2"}] (fun _ _ => none)
      {id := some "2"} "2" {id := some "2"} (by decide) (by decide)).2.2.1
      (by decide) (by decide) rfl (some "kw")

/-- A text tier with an empty search string returns no candidates. -/
theorem runTier_text_empty (db : List Listing) (txt : String → Listing → Option ℚ)
    (q : Query) (ap ab : Bool) (h : text_terms q = "") :
    runTier db txt q true ap ab = [] := by
  simp [runTier, h]

/-- Claim C2 counterexample: the canonical engine (`find_best`, lib variant)
runs a query with no keyword, no location and no id to completion and
returns the `none` MatchResult — it raises no validation error (only the
legacy `find_one` variant does). -/
theorem find_best_no_keyword_c2_counterexample :
    findBest [] (fun _ _ => none) {} =
      (none, "none",
       [("text_strict", DebugVal.entries []), ("text_no_price", DebugVal.entries []),
        ("text_no_beds", DebugVal.entries []),
        ("regex_fallback", DebugVal.entries [])]) := by
  rfl

/-- The tier loop only ever reports an attempted tier's name or "none". -/
theorem goTiers_tier_name (db : List Listing) (txt : String → Listing → Option ℚ)
    (q : Query) :
    ∀ (cfgs : List (String × Bool × Bool × Bool)) (debug : Debug),
      (goTiers db txt q cfgs debug).2.1 = "none" ∨
      (goTiers db txt q cfgs debug).2.1 ∈ cfgs.map (fun c => c.1) := by
  intro cfgs
  induction cfgs with
  | nil => intro debug; left; rfl
  | cons c rest ih =>
      intro debug
      obtain ⟨name, text, ap, ab⟩ := c
      simp only [goTiers]
      cases h : runTier db txt q text ap ab with
      | nil =>
          rcases ih (debug ++ [(name, top5 [])]) with h1 | h1
          · left; exact h1
          · right; simp only [List.map_cons, List.mem_cons]; exact Or.inr h1
      | cons d ds => right; simp

/-- Claim C2 (amended: only the legacy `PropertyRepository.find_one` raises
the typed `ValueError("keyword required")` on a blank keyword; the lib
`find_best` performs no such validation — every query with no truthy
location/keyword/id flows into the ordinary four-tier loop and yields a
plain MatchResult whose tier name is one of the four tiers or "none" (with
features present the text tiers still search the normalized feature terms);
in the feature-free case the three text tiers are empty — their search
string is empty — and the result is the unkeyed regex tier's best match
with tier `regex_fallback` or the `(None, "none", debug)` MatchResult). -/
theorem keyword_validation_c2 :
    (∀ (db : List Listing) (txt : String → Listing → Option ℚ) (p : Query),
      stripStr (if tstr p.keyword then p.keyword.getD "" else "") = "" →
      Legacy.find_one db txt p = .error "keyword required") ∧
    (∀ (db : List Listing) (txt : String → Listing → Option ℚ) (q : Query),
      tstr q.location = false → tstr q.keyword = false →
      tstr q.listing_id = false → tstr q._id = false → tstr q.id = false →
      (findBest db txt q = goTiers db txt q tierCfgs [] ∧
       ((findBest db txt q).2.1 = "text_strict" ∨
        (findBest db txt q).2.1 = "text_no_price" ∨
        (findBest db txt q).2.1 = "text_no_beds" ∨
        (findBest db txt q).2.1 = "regex_fallback" ∨
        (findBest db txt q).2.1 = "none"))) ∧
    (∀ (db : List Listing) (txt : String → Listing → Option ℚ) (q : Query),
      tstr q.location = false → tstr q.keyword = false →
      tstr q.listing_id = false → tstr q._id = false → tstr q.id = false →
      q.features = [] →
      ((findBest db txt q).2.1 = "regex_fallback" ∨
       findBest db txt q =
         (none, "none",
          [("text_strict", DebugVal.entries []),
           ("text_no_price", DebugVal.entries []),
           ("text_no_beds", DebugVal.entries []),
           ("regex_fallback", DebugVal.entries [])]))) := by
  refine ⟨?_, ?_, ?_⟩
  · intro db txt p h
    simp [Legacy.find_one, h]
  · intro db txt q hloc hkw h1 h2 h3
    have hu : unifyLoc q = q := by simp [unifyLoc, hloc, hkw]
    have hid : idLookup q db = none := by
      simp [idLookup, idLookupVals, h1, h2, h3]
    have hfb : findBest db txt q = goTiers db txt q tierCfgs [] := by
      simp [findBest, hu, hid]
    refine ⟨hfb, ?_⟩
    rw [hfb]
    rcases goTiers_tier_name db txt q tierCfgs [] with h | h
    · exact Or.inr (Or.inr (Or.inr (Or.inr h)))
    · simp only [tierCfgs, List.map_cons, List.map_nil, List.mem_cons,
        List.not_mem_nil, or_false] at h
      rcases h with h | h | h | h
      · exact Or.inl h
      · exact Or.inr (Or.inl h)
      · exact Or.inr (Or.inr (Or.inl h))
      · exact Or.inr (Or.inr (Or.inr (Or.inl h)))
  · intro db txt q hloc hkw h1 h2 h3 hfeat
    have hu : unifyLoc q = q := by simp [unifyLoc, hloc, hkw]
    have hid : idLookup q db = none := by
      simp [idLookup, idLookupVals, h1, h2, h3]
    have hterms : text_terms q = "" := by
      have hkey : pyOrStr q.location q.keyword = "" := by simp [pyOrStr, hloc, hkw]
      have hqf : qFeats q = [] := by rw [qFeats, hfeat]; rfl
      simp only [text_terms, hkey, hqf]
      decide
    have e1 : runTier db txt q true true true = [] :=
      runTier_text_empty db txt q true true hterms
    have e2 : runTier db txt q true false true = [] :=
      runTier_text_empty db txt q false true hterms
    have e3 : runTier db txt q true true false = [] :=
      runTier_text_empty db txt q true false hterms
    have hfb : findBest db txt q = goTiers db txt q tierCfgs [] := by
      simp [findBest, hu, hid]
    cases hr4 : runTier db txt q false false false with
    | nil =>
        right
        rw [hfb]
        simp [goTiers, tierCfgs, e1, e2, e3, hr4, top5]
    | cons d ds =>
        left
        rw [hfb]
        simp [goTiers, tierCfgs, e1, e2, e3, hr4]

/-- Claim C2 witness: the legacy engine rejects the empty query with the
typed error, while the lib engine — for a keywordless id-less query even one
carrying feature terms — runs the ordinary tier loop, and in the
feature-free case lands on the regex tier or the `none` terminal. -/
theorem keyword_validation_c2_witness :
    Legacy.find_one [] (fun _ _ => none) {} = .error "keyword required" ∧
    findBest [] (fun _ _ => none) ({features := ["garden"]} : Query) =
      goTiers [] (fun _ _ => none) {features := ["garden"]} tierCfgs [] ∧
    (((findBest [{purpose := some "sale"}] (fun _ _ => none) {}).2.1 = "regex_fallback") ∨
     findBest [{purpose := some "sale"}] (fun _ _ => none) {} =
       (none, "none",
        [("text_strict", DebugVal.entries []),
         ("text_no_price", DebugVal.entries []),
         ("text_no_beds", DebugVal.entries []),
         ("regex_fallback", DebugVal.entries [])])) :=
  ⟨keyword_validation_c2.1 [] (fun _ _ => none) {} (by decide),
   (keyword_validation_c2.2.1 [] (fun _ _ => none) {features := ["garden"]}
     (by decide) (by decide) (by decide) (by decide) (by decide)).1,
   keyword_validation_c2.2.2 [{purpose := some "sale"}] (fun _ _ => none) {}
     (by decide) (by decide) (by decide) (by decide) (by decide) rfl⟩

/-- Every tier's candidate list is sorted by rank score, descending. -/
theorem runTier_pairwise (db : List Listing) (txt : String → Listing → Option ℚ)
    (q : Query) (text ap ab : Bool) :
    (runTier db txt q text ap ab).Pairwise (fun a b => scoreGe a b = true) := by
  have htot : ∀ a b : Listing × ℚ, scoreGe a b = true ∨ scoreGe b a = true := by
    intro a b
    unfold scoreGe
    rcases le_total b.2 a.2 with h | h <;> simp [h]
  have htrans : ∀ a b c : Listing × ℚ,
      scoreGe a b = true → scoreGe b c = true → scoreGe a c = true := by
    intro a b c h1 h2
    unfold scoreGe at *
    simp only [decide_eq_true_eq] at *
    exact le_trans h2 h1
  simp only [runTier]
  split
  · split
    · simp
    · exact pairwise_sortDesc scoreGe htot htrans _
  · exact pairwise_sortDesc scoreGe htot htrans _

/-- The head of a non-empty tier result has maximal rank score among its
candidates. -/
theorem runTier_head_max (db : List Listing) (txt : String → Listing → Option ℚ)
    (q : Query) (text ap ab : Bool) (d : Listing × ℚ) (ds : List (Listing × ℚ))
    (h : runTier db txt q text ap ab = d :: ds) :
    ∀ x ∈ runTier db txt q text ap ab, x.2 ≤ d.2 := by
  have hp := runTier_pairwise db txt q text ap ab
  rw [h] at hp ⊢
  rcases List.pairwise_cons.mp hp with ⟨hd, _⟩
  intro x hx
  rcases List.mem_cons.mp hx with rfl | hx
  · exact le_refl _
  · simpa [scoreGe] using hd x hx

/-- Claim C1: whenever the exact-id lookup does not fire, `find_best`
attempts the tiers in exactly the order `text_strict, text_no_price,
text_no_beds, regex_fallback`; the first tier with ≥1 candidates terminates
the search, returning its highest-scoring candidate, that tier's name, and a
debug trace holding exactly one top-5 entry per attempted tier (so no later
tier is ever executed); if all four tiers are empty the result is
`(None, "none")` with an empty debug entry for each of the four tiers. -/
theorem find_best_tiers_c1 (db : List Listing) (txt : String → Listing → Option ℚ)
    (q : Query) (hid : idLookup (unifyLoc q) db = none) :
    (∀ d ds, runTier db txt (unifyLoc q) true true true = d :: ds →
      findBest db txt q =
        (some d.1, "text_strict",
         [("text_strict", top5 (runTier db txt (unifyLoc q) true true true))]) ∧
      ∀ x ∈ runTier db txt (unifyLoc q) true true true, x.2 ≤ d.2) ∧
    (runTier db txt (unifyLoc q) true true true = [] →
     ∀ d ds, runTier db txt (unifyLoc q) true false true = d :: ds →
      findBest db txt q =
        (some d.1, "text_no_price",
         [("text_strict", DebugVal.entries []),
          ("text_no_price", top5 (runTier db txt (unifyLoc q) true false true))]) ∧
      ∀ x ∈ runTier db txt (unifyLoc q) true false true, x.2 ≤ d.2) ∧
    (runTier db txt (unifyLoc q) true true true = [] →
     runTier db txt (unifyLoc q) true false true = [] →
     ∀ d ds, runTier db txt (unifyLoc q) true true false = d :: ds →
      findBest db txt q =
        (some d.1, "text_no_beds",
         [("text_strict", DebugVal.entries []),
          ("text_no_price", DebugVal.entries []),
          ("text_no_beds", top5 (runTier db txt (unifyLoc q) true true false))]) ∧
      ∀ x ∈ runTier db txt (unifyLoc q) true true false, x.2 ≤ d.2) ∧
    (runTier db txt (unifyLoc q) true true true = [] →
     runTier db txt (unifyLoc q) true false true = [] →
     runTier db txt (unifyLoc q) true true false = [] →
     ∀ d ds, runTier db txt (unifyLoc q) false false false = d :: ds →
      findBest db txt q =
        (some d.1, "regex_fallback",
         [("text_strict", DebugVal.entries []),
          ("text_no_price", DebugVal.entries []),
          ("text_no_beds", DebugVal.entries []),
          ("regex_fallback", top5 (runTier db txt (unifyLoc q) false false false))]) ∧
      ∀ x ∈ runTier db txt (unifyLoc q) false false false, x.2 ≤ d.2) ∧
    (runTier db txt (unifyLoc q) true true true = [] →
     runTier db txt (unifyLoc q) true false true = [] →
     runTier db txt (unifyLoc q) true true false = [] →
     runTier db txt (unifyLoc q) false false false = [] →
      findBest db txt q =
        (none, "none",
         [("text_strict", DebugVal.entries []),
          ("text_no_price", DebugVal.entries []),
          ("text_no_beds", DebugVal.entries []),
          ("regex_fallback", DebugVal.entries [])])) := by
  have hfb : findBest db txt q = goTiers db txt (unifyLoc q) tierCfgs [] := by
    simp [findBest, hid]
  refine ⟨?_, ?_, ?_, ?_, ?_⟩
  · intro d ds h1
    refine ⟨?_, runTier_head_max db txt (unifyLoc q) true true true d ds h1⟩
    rw [hfb]
    simp [goTiers, tierCfgs, h1]
  · intro h1 d ds h2
    refine ⟨?_, runTier_head_max db txt (unifyLoc q) true false true d ds h2⟩
    rw [hfb]
    simp [goTiers, tierCfgs, h1, h2, top5]
  · intro h1 h2 d ds h3
    refine ⟨?_, runTier_head_max db txt (unifyLoc q) true true false d ds h3⟩
    rw [hfb]
    simp [goTiers, tierCfgs, h1, h2, h3, top5]
  · intro h1 h2 h3 d ds h4
    refine ⟨?_, runTier_head_max db txt (unifyLoc q) false false false d ds h4⟩
    rw [hfb]
    simp [goTiers, tierCfgs, h1, h2, h3, h4, top5]
  · intro h1 h2 h3 h4
    rw [hfb]
    simp [goTiers, tierCfgs, h1, h2, h3, h4, top5]

/-- Claim C1 witness: on an empty collection every tier is empty and the
result is the terminal `none` state with one empty debug entry per tier. -/
theorem find_best_tiers_c1_witness :
    findBest [] (fun _ _ => none) {location := some "chelsea"} =
      (none, "none",
       [("text_strict", DebugVal.entries []),
        ("text_no_price", DebugVal.entries []),
        ("text_no_beds", DebugVal.entries []),
        ("regex_fallback", DebugVal.entries [])]) := by
  have h := find_best_tiers_c1 [] (fun _ _ => none) {location := some "chelsea"} rfl
  exact h.2.2.2.2 rfl rfl rfl rfl
